import Mathlib

/-!
Verification of the platform-management firmware core (interrupt routing,
procedure catalog, keyhole transfer, readback progress tracking).

The interrupt-router definitions are shallow embeddings of
`lib/sw_apps/versal_psmfw/src/xpsmfw_iomodule.c`.  Handlers are side-effecting
C functions; we model an execution as the ordered trace of observable events
(handler invocations, register writes, error reports) it produces.
-/

/-- Symbolic identifiers for the six interrupt-handler functions bound in
`g_TopLevelInterruptTable` (XPsmFw_InterruptIpiHandler, ...). -/
inductive HandlerId where
  | ipi
  | pwrUp
  | pwrDwn
  | wakeup
  | pwrCtl
  | gicP2
  deriving DecidableEq, Repr

/-- Symbolic identifiers for the memory-mapped registers the embedded code
touches.  Their addresses are deployment configuration; only their identity
matters to the claims. -/
inductive Reg where
  | IPI_PSM_ISR
  | PSM_IOMODULE_IRQ_PENDING
  | PSM_IOMODULE_IRQ_ACK
  | PSM_GLOBAL_REG_ERR1_TRIG
  deriving DecidableEq, Repr

/-- Observable events of one firmware execution, in program order. -/
inductive Event where
  | invoke (h : HandlerId)
  | write (r : Reg) (v : Nat)
  | report
  | dispatchIpi (mask : Nat)
  deriving DecidableEq, Repr

/-- One row of `struct HandlerTable` (xpsmfw_iomodule.c line 173): interrupt
bit position, pending-register mask, and an optional bound handler (the
SW_RST row has a NULL handler). -/
structure HandlerTableEntry where
  Shift : Nat
  Mask : Nat
  Handler : Option HandlerId
  deriving DecidableEq, Repr

/-- The body of one iteration of the dispatch loop in `XPsmFw_IntrHandler`
(xpsmfw_iomodule.c lines 409-419): if the entry's mask is fully contained in
the pending register value, call the handler when it is non-NULL, then write
the entry's mask to the acknowledge register. -/
def entryEvents (pendingReg : Nat) (e : HandlerTableEntry) : List Event :=
  if pendingReg &&& e.Mask = e.Mask then
    (match e.Handler with
      | some h => [Event.invoke h]
      | none => []) ++ [Event.write Reg.PSM_IOMODULE_IRQ_ACK e.Mask]
  else []

/-- `XPsmFw_IntrHandler` (xpsmfw_iomodule.c lines 399-421): reads the pending
register once (here passed as `pendingReg`) and runs the dispatch loop over
the table rows in order. -/
def XPsmFw_IntrHandler : List HandlerTableEntry → Nat → List Event
  | [], _ => []
  | e :: rest, pendingReg => entryEvents pendingReg e ++ XPsmFw_IntrHandler rest pendingReg

/-- Modelled from the spec: the numeric values of the
`PSM_IOMODULE_IRQ_PENDING_*_SHIFT` constants live in `psm_global.h`, which is
not among the surveyed sources.  The spec's table invariant is that bit
positions are unique within the active table, so we fix one representative
assignment of distinct bit positions. -/
def PSM_IOMODULE_IRQ_PENDING_IPI_SHIFT : Nat := 0

/-- Modelled from the spec: distinct bit position, see the IPI shift. -/
def PSM_IOMODULE_IRQ_PENDING_PWR_UP_REQ_SHIFT : Nat := 1

/-- Modelled from the spec: distinct bit position, see the IPI shift. -/
def PSM_IOMODULE_IRQ_PENDING_PWR_DWN_REQ_SHIFT : Nat := 2

/-- Modelled from the spec: distinct bit position, see the IPI shift. -/
def PSM_IOMODULE_IRQ_PENDING_WAKE_UP_REQ_SHIFT : Nat := 3

/-- Modelled from the spec: distinct bit position, see the IPI shift. -/
def PSM_IOMODULE_IRQ_PENDING_PWR_CNT_REQ_SHIFT : Nat := 4

/-- Modelled from the spec: distinct bit position, see the IPI shift. -/
def PSM_IOMODULE_IRQ_PENDING_SW_RST_REQ_SHIFT : Nat := 5

/-- Modelled from the spec: distinct bit position, see the IPI shift. -/
def PSM_IOMODULE_IRQ_PENDING_GICP_INT_SHIFT : Nat := 6

/-- Modelled from the spec: each pending mask is the single bit at the
source's bit position. -/
def PSM_IOMODULE_IRQ_PENDING_IPI_MASK : Nat := 1 <<< PSM_IOMODULE_IRQ_PENDING_IPI_SHIFT

/-- Modelled from the spec: single-bit mask, see the IPI mask. -/
def PSM_IOMODULE_IRQ_PENDING_PWR_UP_REQ_MASK : Nat := 1 <<< PSM_IOMODULE_IRQ_PENDING_PWR_UP_REQ_SHIFT

/-- Modelled from the spec: single-bit mask, see the IPI mask. -/
def PSM_IOMODULE_IRQ_PENDING_PWR_DWN_REQ_MASK : Nat := 1 <<< PSM_IOMODULE_IRQ_PENDING_PWR_DWN_REQ_SHIFT

/-- Modelled from the spec: single-bit mask, see the IPI mask. -/
def PSM_IOMODULE_IRQ_PENDING_WAKE_UP_REQ_MASK : Nat := 1 <<< PSM_IOMODULE_IRQ_PENDING_WAKE_UP_REQ_SHIFT

/-- Modelled from the spec: single-bit mask, see the IPI mask. -/
def PSM_IOMODULE_IRQ_PENDING_PWR_CNT_REQ_MASK : Nat := 1 <<< PSM_IOMODULE_IRQ_PENDING_PWR_CNT_REQ_SHIFT

/-- Modelled from the spec: single-bit mask, see the IPI mask. -/
def PSM_IOMODULE_IRQ_PENDING_SW_RST_REQ_MASK : Nat := 1 <<< PSM_IOMODULE_IRQ_PENDING_SW_RST_REQ_SHIFT

/-- Modelled from the spec: single-bit mask, see the IPI mask. -/
def PSM_IOMODULE_IRQ_PENDING_GICP_INT_MASK : Nat := 1 <<< PSM_IOMODULE_IRQ_PENDING_GICP_INT_SHIFT

/-- `g_TopLevelInterruptTable` (xpsmfw_iomodule.c lines 173-209): seven rows
in priority order; the SW_RST row has a NULL handler. -/
def g_TopLevelInterruptTable : List HandlerTableEntry :=
  [ ⟨PSM_IOMODULE_IRQ_PENDING_IPI_SHIFT, PSM_IOMODULE_IRQ_PENDING_IPI_MASK, some HandlerId.ipi⟩,
    ⟨PSM_IOMODULE_IRQ_PENDING_PWR_UP_REQ_SHIFT, PSM_IOMODULE_IRQ_PENDING_PWR_UP_REQ_MASK, some HandlerId.pwrUp⟩,
    ⟨PSM_IOMODULE_IRQ_PENDING_PWR_DWN_REQ_SHIFT, PSM_IOMODULE_IRQ_PENDING_PWR_DWN_REQ_MASK, some HandlerId.pwrDwn⟩,
    ⟨PSM_IOMODULE_IRQ_PENDING_WAKE_UP_REQ_SHIFT, PSM_IOMODULE_IRQ_PENDING_WAKE_UP_REQ_MASK, some HandlerId.wakeup⟩,
    ⟨PSM_IOMODULE_IRQ_PENDING_PWR_CNT_REQ_SHIFT, PSM_IOMODULE_IRQ_PENDING_PWR_CNT_REQ_MASK, some HandlerId.pwrCtl⟩,
    ⟨PSM_IOMODULE_IRQ_PENDING_SW_RST_REQ_SHIFT, PSM_IOMODULE_IRQ_PENDING_SW_RST_REQ_MASK, none⟩,
    ⟨PSM_IOMODULE_IRQ_PENDING_GICP_INT_SHIFT, PSM_IOMODULE_IRQ_PENDING_GICP_INT_MASK, some HandlerId.gicP2⟩ ]

/-- Number of acknowledge-register writes carrying value `m` in a trace. -/
def ackCount (tr : List Event) (m : Nat) : Nat :=
  tr.count (Event.write Reg.PSM_IOMODULE_IRQ_ACK m)

/-- Number of invocations of handler `h` in a trace. -/
def invokeCount (tr : List Event) (h : HandlerId) : Nat :=
  tr.count (Event.invoke h)

/-- Status results of the PSM firmware operations (XST_SUCCESS, XST_FAILURE,
XST_INVALID_PARAM from xstatus.h; only their identities matter). -/
inductive XStatus where
  | success
  | failure
  | invalidParam
  deriving DecidableEq, Repr

/-- Program counter of `XPsmfw_ExceptionHandler` (xpsmfw_iomodule.c lines
144-153): first the ERR1_TRIG write, then the `while (TRUE)` loop.  The
`returned` state would mean the handler returned to its caller; the code has
no path to it. -/
inductive ExcPc where
  | writeTrig
  | loop
  | returned
  deriving DecidableEq, Repr

/-- One small step of `XPsmfw_ExceptionHandler`.  `ncrMask` is the value of
PSM_GLOBAL_REG_ERR1_TRIG_PSM_B_NCR_MASK (defined outside the surveyed
sources), kept as a parameter. -/
def excStep (ncrMask : Nat) : ExcPc → ExcPc × List Event
  | ExcPc.writeTrig => (ExcPc.loop, [Event.write Reg.PSM_GLOBAL_REG_ERR1_TRIG ncrMask])
  | ExcPc.loop => (ExcPc.loop, [])
  | ExcPc.returned => (ExcPc.returned, [])

/-- Execution of `XPsmfw_ExceptionHandler` for `n` small steps from entry:
final program counter and the trace of events emitted so far. -/
def excRun (ncrMask : Nat) : Nat → ExcPc × List Event
  | 0 => (ExcPc.writeTrig, [])
  | n + 1 =>
    let r := excRun ncrMask n
    let s := excStep ncrMask r.1
    (s.1, r.2 ++ s.2)

/-- Which handler is registered for an exception id. -/
inductive ExcHandlerRef where
  | psmfwExceptionHandler
  | unregistered
  deriving DecidableEq, Repr

/-- `Xil_ExceptionRegisterHandler`: binds handler `h` at exception id `id` in
the exception table. -/
def Xil_ExceptionRegisterHandler (tbl : Nat → ExcHandlerRef) (id : Nat)
    (h : ExcHandlerRef) : Nat → ExcHandlerRef :=
  fun i => if i = id then h else tbl i

/-- `XPsmfw_ExceptionInit` (xpsmfw_iomodule.c lines 162-170): registers
`XPsmfw_ExceptionHandler` for every exception id from XIL_EXCEPTION_ID_FIRST
to XIL_EXCEPTION_ID_LAST inclusive (the bounds are platform constants outside
the surveyed sources, kept as parameters). -/
def XPsmfw_ExceptionInit (first last : Nat) (tbl : Nat → ExcHandlerRef) :
    Nat → ExcHandlerRef :=
  (List.range' first (last + 1 - first)).foldl
    (fun t i => Xil_ExceptionRegisterHandler t i ExcHandlerRef.psmfwExceptionHandler) tbl

/-- What an interrupt line of the IO module is bound to. -/
inductive IntrHandlerRef where
  | defaultDispatcher
  | stl (tag : Nat)
  deriving DecidableEq, Repr

/-- The IO module's per-line bindings and enable bits. -/
structure IoModuleState where
  handlerOf : Nat → IntrHandlerRef
  enabledOf : Nat → Bool

/-- Modelled from the spec: XPAR_IOMODULE_INTC_MAX_INTR_SIZE is a build
configuration constant from xparameters.h (not among the surveyed sources);
the IO module has 32 interrupt lines. -/
def XPAR_IOMODULE_INTC_MAX_INTR_SIZE : Nat := 32

/-- Modelled from the spec: XIOModule_Disable (IO module driver, not among the
surveyed sources) clears the enable bit of one line. -/
def XIOModule_Disable (io : IoModuleState) (n : Nat) : IoModuleState :=
  { io with enabledOf := fun i => if i = n then false else io.enabledOf i }

/-- Modelled from the spec: XIOModule_Enable sets the enable bit of one line. -/
def XIOModule_Enable (io : IoModuleState) (n : Nat) : IoModuleState :=
  { io with enabledOf := fun i => if i = n then true else io.enabledOf i }

/-- Modelled from the spec: XIOModule_Connect binds a handler to one line,
succeeding for in-range line numbers. -/
def XIOModule_Connect (io : IoModuleState) (n : Nat) (h : IntrHandlerRef) :
    XStatus × IoModuleState :=
  if n < XPAR_IOMODULE_INTC_MAX_INTR_SIZE then
    (XStatus.success, { io with handlerOf := fun i => if i = n then h else io.handlerOf i })
  else (XStatus.failure, io)

/-- `XPsmFw_RegisterStlInterruptHandler` (xpsmfw_iomodule.c lines 333-356):
rejects a NULL handler or an out-of-range interrupt number with
XST_INVALID_PARAM; otherwise disables the line, connects the supplied
handler, and re-enables the line. -/
def XPsmFw_RegisterStlInterruptHandler (io : IoModuleState) (intrNumber : Nat)
    (stlInterruptHandler : Option IntrHandlerRef) : XStatus × IoModuleState :=
  match stlInterruptHandler with
  | none => (XStatus.invalidParam, io)
  | some h =>
    if XPAR_IOMODULE_INTC_MAX_INTR_SIZE ≤ intrNumber then (XStatus.invalidParam, io)
    else
      let io1 := XIOModule_Disable io intrNumber
      let r := XIOModule_Connect io1 intrNumber h
      if r.1 = XStatus.success then (XStatus.success, XIOModule_Enable r.2 intrNumber)
      else (r.1, r.2)

/-- `XPsmFw_RestoreInterruptHandler` (xpsmfw_iomodule.c lines 370-391):
rejects an out-of-range interrupt number with XST_INVALID_PARAM; otherwise
disables the line, reconnects the default dispatcher `XPsmFw_IntrHandler`,
and re-enables the line. -/
def XPsmFw_RestoreInterruptHandler (io : IoModuleState) (intrNumber : Nat) :
    XStatus × IoModuleState :=
  if XPAR_IOMODULE_INTC_MAX_INTR_SIZE ≤ intrNumber then (XStatus.invalidParam, io)
  else
    let io1 := XIOModule_Disable io intrNumber
    let r := XIOModule_Connect io1 intrNumber IntrHandlerRef.defaultDispatcher
    if r.1 = XStatus.success then (XStatus.success, XIOModule_Enable r.2 intrNumber)
    else (r.1, r.2)

/-- `XPsmFw_InterruptIpiHandler` (xpsmfw_iomodule.c lines 37-63): `mask` is
the value read from IPI_PSM_ISR at entry; `pmcMask` is IPI_PSM_ISR_PMC_MASK
(defined outside the surveyed sources); `dispatchStatus` is the status the
IPI dispatcher collaborator returns when it is called.  If the PMC bits are
not all set, an error is reported and no dispatch happens; either way the
read value is written back to IPI_PSM_ISR, and a failure status is reported
afterwards.  (The build with XPAR_XIPIPSU_0_DEVICE_ID defined is modelled;
without it the dispatch call is replaced by an error report.) -/
def XPsmFw_InterruptIpiHandler (pmcMask mask : Nat) (dispatchStatus : XStatus) :
    List Event :=
  (if pmcMask &&& mask = pmcMask then [Event.dispatchIpi pmcMask] else [Event.report]) ++
  [Event.write Reg.IPI_PSM_ISR mask] ++
  (if (if pmcMask &&& mask = pmcMask then dispatchStatus else XStatus.failure) = XStatus.success
   then [] else [Event.report])

/-- Recognizes a write to the IPI_PSM_ISR register. -/
def isIsrWrite : Event → Bool
  | Event.write Reg.IPI_PSM_ISR _ => true
  | _ => false

/-- Error codes of the xilplmi generic module (xplmi_generic.h lines 66-71). -/
def XPLMI_ERR_MASKPOLL : Nat := 0x10

/-- xplmi_generic.h: 0x11. -/
def XPLMI_ERR_MASKPOLL64 : Nat := 0x11

/-- xplmi_generic.h: 0x12. -/
def XPLMI_ERR_CMD_NOT_SUPPORTED : Nat := 0x12

/-- xplmi_generic.h: 0x13, the readback buffer overflow error. -/
def XPLMI_ERR_READBACK_BUFFER_OVERFLOW : Nat := 0x13

/-- Maximum procs supported (xplmi_generic.h line 74). -/
def XPLMI_MAX_PROCS_SUPPORTED : Nat := 10

/-- Modelled from the spec: XST_SUCCESS, the all-clear status code (xstatus.h,
not among the surveyed sources), value 0. -/
def XST_SUCCESS_VAL : Nat := 0

/-- `XPlmi_ReadBackProps` (xplmi_generic.h lines 77-81). -/
structure XPlmi_ReadBackProps where
  DestAddr : Nat
  MaxSize : Nat
  ProcessedLen : Nat
  deriving DecidableEq, Repr

/-- Modelled from the spec: the readback progress update of §4.4 (the code
updating `ProcessedLen` lives in xplmi_generic.c, which is not among the
surveyed sources; src declares only XPlmi_ReadBackProps and the overflow
error code).  `recordProgress(delta)` adds to `processedLength`; if the
result would exceed `maxSize`, the call fails with
XPLMI_ERR_READBACK_BUFFER_OVERFLOW and `processedLength` keeps its last
valid value — no partial credit for the offending delta. -/
def recordProgress (p : XPlmi_ReadBackProps) (delta : Nat) :
    Nat × XPlmi_ReadBackProps :=
  if p.MaxSize < p.ProcessedLen + delta then
    (XPLMI_ERR_READBACK_BUFFER_OVERFLOW, p)
  else
    (XST_SUCCESS_VAL, { p with ProcessedLen := p.ProcessedLen + delta })

/-- `XPlmi_ProcData` (xplmi_generic.h lines 93-96): one {id, address} pair. -/
structure XPlmi_ProcData where
  Id : Nat
  Addr : Nat
  deriving DecidableEq, Repr

/-- `XPlmi_ProcList` (xplmi_generic.h lines 98-103): the registered catalog. -/
structure XPlmi_ProcList where
  ProcCount : Nat
  ProcData : List XPlmi_ProcData
  deriving DecidableEq, Repr

/-- Result of executing a procedure id against the catalog. -/
inductive ProcStatus where
  | ok (addr : Nat)
  | notFound
  deriving DecidableEq, Repr

/-- Modelled from the spec: `XPlmi_ExecuteProc` (implemented in
xplmi_generic.c, not among the surveyed sources; src declares only its
prototype).  §4.2: a linear scan over at most the fixed capacity, first
match wins; an absent id fails with a not-found condition; a present id
transfers control to the command interpreter at the recorded address
(returned here as `ok addr`). -/
def XPlmi_ExecuteProc (l : XPlmi_ProcList) (procId : Nat) : ProcStatus :=
  match l.ProcData.find? (fun p => p.Id == procId) with
  | some p => ProcStatus.ok p.Addr
  | none => ProcStatus.notFound

/-- Result of a bulk catalog registration. -/
inductive SetProcStatus where
  | ok
  | capacityExceeded
  deriving DecidableEq, Repr

/-- Reads `count` {id, address} pairs from the word-addressed memory region
starting at `address` (two words per pair). -/
def parseProcData (mem : Nat → Nat) (address count : Nat) : List XPlmi_ProcData :=
  (List.range count).map (fun i => ⟨mem (address + 2 * i), mem (address + 2 * i + 1)⟩)

/-- Modelled from the spec: `XPlmi_SetProcList` (implemented in
xplmi_generic.c, not among the surveyed sources; src declares only its
prototype).  §4.2/§6: parses a contiguous block of {id, address} pairs (two
words each, so the count implied by `size` is `size / 2`), replacing any
prior catalog; if the implied count exceeds XPLMI_MAX_PROCS_SUPPORTED the
registration fails wholesale and the prior catalog is left intact. -/
def XPlmi_SetProcList (mem : Nat → Nat) (address size : Nat)
    (old : XPlmi_ProcList) : SetProcStatus × XPlmi_ProcList :=
  let count := size / 2
  if XPLMI_MAX_PROCS_SUPPORTED < count then (SetProcStatus.capacityExceeded, old)
  else (SetProcStatus.ok, ⟨count, parseProcData mem address count⟩)

/-- Modelled from the spec: the keyhole transfer state of §3 (the transfer
loop XPlmi_KeyHoleXfr lives in xplmi_generic.c, not among the surveyed
sources; src declares only XPlmi_KeyHoleXfrParams). -/
structure KeyholeTransferState where
  sourceAddress : Nat
  destinationAddress : Nat
  totalLength : Nat
  windowSize : Nat
  bytesTransferred : Nat
  deriving DecidableEq, Repr

/-- Modelled from the spec: §4.3 `step()` moves
`min(windowSize, totalLength - bytesTransferred)` bytes, advances
`bytesTransferred` and the source cursor by the chunk length, and returns a
completion flag when `bytesTransferred == totalLength`. -/
def keyholeStep (s : KeyholeTransferState) :
    KeyholeTransferState × Nat × Bool :=
  let chunk := min s.windowSize (s.totalLength - s.bytesTransferred)
  let s' := { s with
    bytesTransferred := s.bytesTransferred + chunk,
    sourceAddress := s.sourceAddress + chunk }
  (s', chunk, s'.bytesTransferred == s'.totalLength)

/-- The driver loop of §5: repeated non-blocking `step()` calls until the
completion flag.  `fuel` bounds the recursion; any fuel ≥ totalLength
suffices.  Returns the (chunkLength, completionFlag) pair of each call in
order. -/
def keyholeRun (fuel : Nat) (s : KeyholeTransferState) : List (Nat × Bool) :=
  match fuel with
  | 0 => []
  | fuel' + 1 =>
    let r := keyholeStep s
    (r.2.1, r.2.2) :: (if r.2.2 then [] else keyholeRun fuel' r.1)

/-- Fresh transfer state for given geometry (bytesTransferred starts at 0). -/
def keyholeInit (src dest totalLength windowSize : Nat) : KeyholeTransferState :=
  ⟨src, dest, totalLength, windowSize, 0⟩

theorem intrHandler_cons (e : HandlerTableEntry) (rest : List HandlerTableEntry)
    (p : Nat) :
    XPsmFw_IntrHandler (e :: rest) p = entryEvents p e ++ XPsmFw_IntrHandler rest p := rfl

theorem ackCount_append (a b : List Event) (m : Nat) :
    ackCount (a ++ b) m = ackCount a m + ackCount b m :=
  List.count_append ..

theorem invokeCount_append (a b : List Event) (h : HandlerId) :
    invokeCount (a ++ b) h = invokeCount a h + invokeCount b h :=
  List.count_append ..

theorem ackCount_entryEvents (p : Nat) (e : HandlerTableEntry) (m : Nat) :
    ackCount (entryEvents p e) m =
      if p &&& e.Mask = e.Mask ∧ e.Mask = m then 1 else 0 := by
  unfold entryEvents ackCount
  by_cases hc : p &&& e.Mask = e.Mask
  · rw [if_pos hc]
    by_cases hm : e.Mask = m
    · subst hm
      cases e.Handler <;> simp [hc, List.count_cons, List.count_nil]
    · cases e.Handler <;> simp [hc, hm, List.count_cons, List.count_nil]
  · rw [if_neg hc, if_neg (fun hh => hc hh.1)]
    rfl

theorem invokeCount_entryEvents (p : Nat) (e : HandlerTableEntry) (h : HandlerId) :
    invokeCount (entryEvents p e) h =
      if p &&& e.Mask = e.Mask ∧ e.Handler = some h then 1 else 0 := by
  unfold entryEvents invokeCount
  by_cases hc : p &&& e.Mask = e.Mask
  · rw [if_pos hc]
    cases hh : e.Handler with
    | none => simp [hh, List.count_cons, List.count_nil]
    | some h' =>
      by_cases he : h' = h <;>
        simp [hc, hh, he, List.count_cons, List.count_nil]
  · rw [if_neg hc, if_neg (fun hh => hc hh.1)]
    rfl

theorem ackCount_intrHandler_zero (table : List HandlerTableEntry) (p m : Nat)
    (hz : ∀ b ∈ table, ¬(p &&& b.Mask = b.Mask ∧ b.Mask = m)) :
    ackCount (XPsmFw_IntrHandler table p) m = 0 := by
  induction table with
  | nil => rfl
  | cons a rest ih =>
    rw [intrHandler_cons, ackCount_append, ackCount_entryEvents,
      if_neg (hz a (List.mem_cons_self a rest))]
    have := ih (fun b hb => hz b (List.mem_cons_of_mem a hb))
    omega

theorem invokeCount_intrHandler_zero (table : List HandlerTableEntry) (p : Nat)
    (h : HandlerId)
    (hz : ∀ b ∈ table, ¬(p &&& b.Mask = b.Mask ∧ b.Handler = some h)) :
    invokeCount (XPsmFw_IntrHandler table p) h = 0 := by
  induction table with
  | nil => rfl
  | cons a rest ih =>
    rw [intrHandler_cons, invokeCount_append, invokeCount_entryEvents,
      if_neg (hz a (List.mem_cons_self a rest))]
    have := ih (fun b hb => hz b (List.mem_cons_of_mem a hb))
    omega

/-- **C1**: for every dispatch call with pending mask `pendingReg`, every
table entry whose mask is fully contained in the pending mask has its bound
handler invoked exactly once when one is present (an entry with no handler is
still acknowledged), and exactly one acknowledge-register write of exactly
that entry's mask bits occurs, regardless of handler outcome; an entry whose
mask is not fully contained is neither invoked nor acknowledged.  The two
pairwise hypotheses are the spec's table invariant (unique bit positions,
distinct bound handlers). -/
theorem C1_dispatch_ack_exactly_once
    (table : List HandlerTableEntry) (pendingReg : Nat)
    (hmask : table.Pairwise (fun a b => a.Mask ≠ b.Mask))
    (hhandler : table.Pairwise (fun a b => a.Handler = none ∨ a.Handler ≠ b.Handler))
    (e : HandlerTableEntry) (he : e ∈ table) :
    (pendingReg &&& e.Mask = e.Mask →
      ackCount (XPsmFw_IntrHandler table pendingReg) e.Mask = 1 ∧
      ∀ h, e.Handler = some h →
        invokeCount (XPsmFw_IntrHandler table pendingReg) h = 1) ∧
    (¬(pendingReg &&& e.Mask = e.Mask) →
      ackCount (XPsmFw_IntrHandler table pendingReg) e.Mask = 0 ∧
      ∀ h, e.Handler = some h →
        invokeCount (XPsmFw_IntrHandler table pendingReg) h = 0) := by
  induction table with
  | nil => cases he
  | cons a rest ih =>
    rw [List.pairwise_cons] at hmask hhandler
    obtain ⟨hma, hmrest⟩ := hmask
    obtain ⟨hha, hhrest⟩ := hhandler
    rcases List.mem_cons.mp he with rfl | hmem
    · refine ⟨fun hcont => ⟨?_, fun h hh => ?_⟩, fun hncont => ⟨?_, fun h hh => ?_⟩⟩
      · rw [intrHandler_cons, ackCount_append, ackCount_entryEvents,
          if_pos ⟨hcont, rfl⟩]
        have hz : ackCount (XPsmFw_IntrHandler rest pendingReg) e.Mask = 0 :=
          ackCount_intrHandler_zero rest pendingReg e.Mask
            (fun b hb hco => hma b hb hco.2.symm)
        omega
      · rw [intrHandler_cons, invokeCount_append, invokeCount_entryEvents,
          if_pos ⟨hcont, hh⟩]
        have hz : invokeCount (XPsmFw_IntrHandler rest pendingReg) h = 0 := by
          refine invokeCount_intrHandler_zero rest pendingReg h
            (fun b hb hco => ?_)
          rcases hha b hb with hn | hne
          · rw [hn] at hh; cases hh
          · rw [hh] at hne
            exact hne (hco.2.symm ▸ rfl)
        omega
      · rw [intrHandler_cons, ackCount_append, ackCount_entryEvents,
          if_neg (fun hco => hncont hco.1)]
        have hz : ackCount (XPsmFw_IntrHandler rest pendingReg) e.Mask = 0 :=
          ackCount_intrHandler_zero rest pendingReg e.Mask
            (fun b hb hco => hma b hb hco.2.symm)
        omega
      · rw [intrHandler_cons, invokeCount_append, invokeCount_entryEvents,
          if_neg (fun hco => hncont hco.1)]
        have hz : invokeCount (XPsmFw_IntrHandler rest pendingReg) h = 0 := by
          refine invokeCount_intrHandler_zero rest pendingReg h
            (fun b hb hco => ?_)
          rcases hha b hb with hn | hne
          · rw [hn] at hh; cases hh
          · rw [hh] at hne
            exact hne (hco.2.symm ▸ rfl)
        omega
    · have main := ih hmrest hhrest hmem
      have hza : ackCount (entryEvents pendingReg a) e.Mask = 0 := by
        rw [ackCount_entryEvents]
        exact if_neg (fun hco => hma e hmem hco.2)
      refine ⟨fun hcont => ⟨?_, fun h hh => ?_⟩, fun hncont => ⟨?_, fun h hh => ?_⟩⟩
      · rw [intrHandler_cons, ackCount_append, hza]
        have := (main.1 hcont).1
        omega
      · have hzi : invokeCount (entryEvents pendingReg a) h = 0 := by
          rw [invokeCount_entryEvents]
          refine if_neg (fun hco => ?_)
          rcases hha e hmem with hn | hne
          · rw [hn] at hco; cases hco.2
          · rw [hh, hco.2] at hne; exact hne rfl
        rw [intrHandler_cons, invokeCount_append, hzi]
        have := (main.1 hcont).2 h hh
        omega
      · rw [intrHandler_cons, ackCount_append, hza]
        have := (main.2 hncont).1
        omega
      · have hzi : invokeCount (entryEvents pendingReg a) h = 0 := by
          rw [invokeCount_entryEvents]
          refine if_neg (fun hco => ?_)
          rcases hha e hmem with hn | hne
          · rw [hn] at hco; cases hco.2
          · rw [hh, hco.2] at hne; exact hne rfl
        rw [intrHandler_cons, invokeCount_append, hzi]
        have := (main.2 hncont).2 h hh
        omega

/-- Concrete run of C1: with pending value 33 (IPI bit and SW_RST bit set),
the IPI entry of the top-level table is acknowledged exactly once and its
handler invoked exactly once. -/
theorem C1_dispatch_ack_exactly_once_witness :
    33 &&& PSM_IOMODULE_IRQ_PENDING_IPI_MASK = PSM_IOMODULE_IRQ_PENDING_IPI_MASK ∧
    ackCount (XPsmFw_IntrHandler g_TopLevelInterruptTable 33)
      PSM_IOMODULE_IRQ_PENDING_IPI_MASK = 1 ∧
    invokeCount (XPsmFw_IntrHandler g_TopLevelInterruptTable 33) HandlerId.ipi = 1 := by
  have h := C1_dispatch_ack_exactly_once g_TopLevelInterruptTable 33
    (by decide) (by decide)
    ⟨PSM_IOMODULE_IRQ_PENDING_IPI_SHIFT, PSM_IOMODULE_IRQ_PENDING_IPI_MASK,
      some HandlerId.ipi⟩
    (by decide)
  exact ⟨by decide, (h.1 (by decide)).1, (h.1 (by decide)).2 HandlerId.ipi rfl⟩

/-- **C6**: within one dispatch call the table entries are inspected in fixed
table order: for every split point `i`, the dispatch trace is exactly the
concatenation of the complete event blocks of the first `i` entries followed
by the dispatch of the remaining entries — so a higher-priority entry's
handler runs to completion and its acknowledgment is written before any
lower-priority entry is inspected, with no interleaving; and each contained
entry's block is its handler invocation (when a handler is bound)
immediately followed by its acknowledge write. -/
theorem C6_dispatch_table_order
    (table : List HandlerTableEntry) (pendingReg : Nat) (i : Nat) :
    XPsmFw_IntrHandler table pendingReg =
      ((table.take i).map (entryEvents pendingReg)).flatten ++
        XPsmFw_IntrHandler (table.drop i) pendingReg ∧
    ∀ e ∈ table, pendingReg &&& e.Mask = e.Mask →
      entryEvents pendingReg e =
        (match e.Handler with
          | some h => [Event.invoke h]
          | none => []) ++ [Event.write Reg.PSM_IOMODULE_IRQ_ACK e.Mask] := by
  constructor
  · induction table generalizing i with
    | nil => cases i <;> rfl
    | cons a rest ih =>
      cases i with
      | zero => rfl
      | succ i' =>
        rw [List.take_succ_cons, List.drop_succ_cons, List.map_cons, List.flatten_cons,
          intrHandler_cons, ih i', List.append_assoc]
  · intro e _ hcont
    unfold entryEvents
    rw [if_pos hcont]

/-- Concrete run of C6: with pending value 33 the trace splits after the
first three table rows, and the contained IPI entry's block is its handler
invocation followed by its acknowledge write. -/
theorem C6_dispatch_table_order_witness :
    XPsmFw_IntrHandler g_TopLevelInterruptTable 33 =
      ((g_TopLevelInterruptTable.take 3).map (entryEvents 33)).flatten ++
        XPsmFw_IntrHandler (g_TopLevelInterruptTable.drop 3) 33 ∧
    entryEvents 33
        ⟨PSM_IOMODULE_IRQ_PENDING_IPI_SHIFT, PSM_IOMODULE_IRQ_PENDING_IPI_MASK,
          some HandlerId.ipi⟩ =
      [Event.invoke HandlerId.ipi] ++
        [Event.write Reg.PSM_IOMODULE_IRQ_ACK PSM_IOMODULE_IRQ_PENDING_IPI_MASK] := by
  refine ⟨(C6_dispatch_table_order g_TopLevelInterruptTable 33 3).1, ?_⟩
  exact (C6_dispatch_table_order g_TopLevelInterruptTable 33 3).2
    ⟨PSM_IOMODULE_IRQ_PENDING_IPI_SHIFT, PSM_IOMODULE_IRQ_PENDING_IPI_MASK,
      some HandlerId.ipi⟩ (by decide) (by decide)

theorem excRegisterFoldl_not_mem (l : List Nat) (tbl : Nat → ExcHandlerRef)
    (id : Nat) (h : id ∉ l) :
    (l.foldl (fun t i =>
        Xil_ExceptionRegisterHandler t i ExcHandlerRef.psmfwExceptionHandler) tbl) id
      = tbl id := by
  induction l generalizing tbl with
  | nil => rfl
  | cons a rest ih =>
    rw [List.foldl_cons]
    have hne : id ≠ a := fun hh => h (hh ▸ List.mem_cons_self a rest)
    rw [ih _ (fun hm => h (List.mem_cons_of_mem a hm))]
    unfold Xil_ExceptionRegisterHandler
    simp [hne]

theorem excRegisterFoldl_mem (l : List Nat) (tbl : Nat → ExcHandlerRef)
    (id : Nat) (h : id ∈ l) :
    (l.foldl (fun t i =>
        Xil_ExceptionRegisterHandler t i ExcHandlerRef.psmfwExceptionHandler) tbl) id
      = ExcHandlerRef.psmfwExceptionHandler := by
  induction l generalizing tbl with
  | nil => cases h
  | cons a rest ih =>
    rw [List.foldl_cons]
    by_cases hm : id ∈ rest
    · exact ih _ hm
    · have ha : id = a := by
        rcases List.mem_cons.mp h with h1 | h2
        · exact h1
        · exact absurd h2 hm
      subst ha
      rw [excRegisterFoldl_not_mem rest _ id hm]
      unfold Xil_ExceptionRegisterHandler
      simp

theorem excRun_of_pos (ncrMask n : Nat) (h : 1 ≤ n) :
    excRun ncrMask n =
      (ExcPc.loop, [Event.write Reg.PSM_GLOBAL_REG_ERR1_TRIG ncrMask]) := by
  induction n with
  | zero => omega
  | succ n ih =>
    rcases Nat.lt_or_ge 0 n with hn | hn
    · simp [excRun, ih hn, excStep]
    · have hz : n = 0 := by omega
      subst hz
      rfl

/-- **C7**: every processor-level exception id in the registered range is
bound to `XPsmfw_ExceptionHandler`, and that handler writes the PSM
non-correctable bit value to the ERR1_TRIG diagnostic register and then
halts forward progress permanently: after the first step the program counter
stays in the `while (TRUE)` loop with no further events, and no number of
steps ever reaches the `returned` state. -/
theorem C7_exception_fault_terminal (first last id ncrMask : Nat)
    (tbl : Nat → ExcHandlerRef) (h1 : first ≤ id) (h2 : id ≤ last) :
    XPsmfw_ExceptionInit first last tbl id = ExcHandlerRef.psmfwExceptionHandler ∧
    (∀ n, 1 ≤ n →
      excRun ncrMask n =
        (ExcPc.loop, [Event.write Reg.PSM_GLOBAL_REG_ERR1_TRIG ncrMask])) ∧
    (∀ n, (excRun ncrMask n).1 ≠ ExcPc.returned) := by
  refine ⟨?_, fun n hn => excRun_of_pos ncrMask n hn, fun n => ?_⟩
  · unfold XPsmfw_ExceptionInit
    refine excRegisterFoldl_mem _ tbl id ?_
    rw [List.mem_range'_1]
    refine ⟨h1, ?_⟩
    omega
  · cases n with
    | zero => simp [excRun]
    | succ n => rw [excRun_of_pos ncrMask (n + 1) (by omega)]; simp

/-- Concrete run of C7: with exception ids 0..31, id 5 is bound to the
exception handler; three steps of the handler leave it in the loop having
written the diagnostic register once, and zero steps have not reached the
`returned` state. -/
theorem C7_exception_fault_terminal_witness :
    XPsmfw_ExceptionInit 0 31 (fun _ => ExcHandlerRef.unregistered) 5 =
      ExcHandlerRef.psmfwExceptionHandler ∧
    excRun 4 3 = (ExcPc.loop, [Event.write Reg.PSM_GLOBAL_REG_ERR1_TRIG 4]) ∧
    (excRun 4 0).1 ≠ ExcPc.returned := by
  have h := C7_exception_fault_terminal 0 31 5 4
    (fun _ => ExcHandlerRef.unregistered) (by decide) (by decide)
  exact ⟨h.1, h.2.1 3 (by decide), h.2.2 0⟩

/-- **C9**: the runtime handler-override operation and the restore-default
operation reject an interrupt number at or beyond the maximum interrupt
table size (and, for override, a NULL handler) with XST_INVALID_PARAM,
leaving every line's binding unchanged; for an in-range number, override
installs the supplied handler and restore re-installs the default
dispatcher, in both cases leaving every other line's binding unchanged. -/
theorem C9_override_restore_guarded (io : IoModuleState) (n : Nat)
    (h : IntrHandlerRef) :
    (XPAR_IOMODULE_INTC_MAX_INTR_SIZE ≤ n →
      (∀ hh, XPsmFw_RegisterStlInterruptHandler io n hh = (XStatus.invalidParam, io)) ∧
      XPsmFw_RestoreInterruptHandler io n = (XStatus.invalidParam, io)) ∧
    XPsmFw_RegisterStlInterruptHandler io n none = (XStatus.invalidParam, io) ∧
    (n < XPAR_IOMODULE_INTC_MAX_INTR_SIZE →
      (XPsmFw_RegisterStlInterruptHandler io n (some h)).1 = XStatus.success ∧
      (XPsmFw_RegisterStlInterruptHandler io n (some h)).2.handlerOf n = h ∧
      (∀ i, i ≠ n →
        (XPsmFw_RegisterStlInterruptHandler io n (some h)).2.handlerOf i = io.handlerOf i) ∧
      (XPsmFw_RestoreInterruptHandler io n).1 = XStatus.success ∧
      (XPsmFw_RestoreInterruptHandler io n).2.handlerOf n = IntrHandlerRef.defaultDispatcher ∧
      (∀ i, i ≠ n →
        (XPsmFw_RestoreInterruptHandler io n).2.handlerOf i = io.handlerOf i)) := by
  refine ⟨fun hge => ⟨fun hh => ?_, ?_⟩, ?_, fun hlt => ?_⟩
  · cases hh with
    | none => rfl
    | some h' =>
      simp [XPsmFw_RegisterStlInterruptHandler, hge]
  · simp [XPsmFw_RestoreInterruptHandler, hge]
  · rfl
  · have hnge : ¬(XPAR_IOMODULE_INTC_MAX_INTR_SIZE ≤ n) := by omega
    refine ⟨?_, ?_, fun i hi => ?_, ?_, ?_, fun i hi => ?_⟩
    · simp [XPsmFw_RegisterStlInterruptHandler, XIOModule_Connect,
        XIOModule_Disable, XIOModule_Enable, hnge, hlt]
    · simp [XPsmFw_RegisterStlInterruptHandler, XIOModule_Connect,
        XIOModule_Disable, XIOModule_Enable, hnge, hlt]
    · simp [XPsmFw_RegisterStlInterruptHandler, XIOModule_Connect,
        XIOModule_Disable, XIOModule_Enable, hnge, hlt, hi]
    · simp [XPsmFw_RestoreInterruptHandler, XIOModule_Connect,
        XIOModule_Disable, XIOModule_Enable, hnge, hlt]
    · simp [XPsmFw_RestoreInterruptHandler, XIOModule_Connect,
        XIOModule_Disable, XIOModule_Enable, hnge, hlt]
    · simp [XPsmFw_RestoreInterruptHandler, XIOModule_Connect,
        XIOModule_Disable, XIOModule_Enable, hnge, hlt, hi]

/-- Concrete run of C9: with all 32 lines initially bound to the default
dispatcher, registering at line 40 or with a NULL handler fails and changes
nothing; registering an STL handler at line 3 installs it, and restoring
line 3 re-installs the default dispatcher. -/
theorem C9_override_restore_guarded_witness :
    XPsmFw_RegisterStlInterruptHandler
        ⟨fun _ => IntrHandlerRef.defaultDispatcher, fun _ => false⟩ 40
        (some (IntrHandlerRef.stl 1)) =
      (XStatus.invalidParam, ⟨fun _ => IntrHandlerRef.defaultDispatcher, fun _ => false⟩) ∧
    XPsmFw_RegisterStlInterruptHandler
        ⟨fun _ => IntrHandlerRef.defaultDispatcher, fun _ => false⟩ 3 none =
      (XStatus.invalidParam, ⟨fun _ => IntrHandlerRef.defaultDispatcher, fun _ => false⟩) ∧
    (XPsmFw_RegisterStlInterruptHandler
        ⟨fun _ => IntrHandlerRef.defaultDispatcher, fun _ => false⟩ 3
        (some (IntrHandlerRef.stl 1))).2.handlerOf 3 = IntrHandlerRef.stl 1 ∧
    (XPsmFw_RestoreInterruptHandler
        ⟨fun _ => IntrHandlerRef.defaultDispatcher, fun _ => false⟩ 3).2.handlerOf 7 =
      IntrHandlerRef.defaultDispatcher := by
  have h40 := C9_override_restore_guarded
    ⟨fun _ => IntrHandlerRef.defaultDispatcher, fun _ => false⟩ 40 (IntrHandlerRef.stl 1)
  have h3 := C9_override_restore_guarded
    ⟨fun _ => IntrHandlerRef.defaultDispatcher, fun _ => false⟩ 3 (IntrHandlerRef.stl 1)
  refine ⟨(h40.1 (by decide)).1 (some (IntrHandlerRef.stl 1)), h3.2.1, ?_, ?_⟩
  · exact (h3.2.2 (by decide)).2.1
  · exact (h3.2.2 (by decide)).2.2.2.2.2 7 (by decide)

/-- **C10**: every invocation of the IPI interrupt handler performs exactly
one write to the IPI interrupt-status register, and it carries exactly the
value that was read from that register at entry; when the interrupt did not
originate from the PMC (the PMC mask bits are not all set in the read
value), an error is reported and no IPI dispatch occurs, but the status
write still happens. -/
theorem C10_ipi_status_cleared (pmcMask mask : Nat) (st : XStatus) :
    (XPsmFw_InterruptIpiHandler pmcMask mask st).filter isIsrWrite =
      [Event.write Reg.IPI_PSM_ISR mask] ∧
    (¬(pmcMask &&& mask = pmcMask) →
      Event.report ∈ XPsmFw_InterruptIpiHandler pmcMask mask st ∧
      ∀ m, Event.dispatchIpi m ∉ XPsmFw_InterruptIpiHandler pmcMask mask st) := by
  by_cases hv : pmcMask &&& mask = pmcMask
  · refine ⟨?_, fun hn => absurd hv hn⟩
    by_cases hs : st = XStatus.success <;>
      simp [XPsmFw_InterruptIpiHandler, hv, hs, isIsrWrite, List.filter]
  · refine ⟨?_, fun _ => ⟨?_, fun m => ?_⟩⟩ <;>
      simp [XPsmFw_InterruptIpiHandler, hv, isIsrWrite, List.filter]

/-- Concrete run of C10: with PMC mask 1 and read status value 2 (an IPI not
from the PMC), the handler still writes back 2 to the status register
exactly once, reports an error, and performs no dispatch. -/
theorem C10_ipi_status_cleared_witness :
    (XPsmFw_InterruptIpiHandler 1 2 XStatus.failure).filter isIsrWrite =
      [Event.write Reg.IPI_PSM_ISR 2] ∧
    Event.report ∈ XPsmFw_InterruptIpiHandler 1 2 XStatus.failure ∧
    Event.dispatchIpi 1 ∉ XPsmFw_InterruptIpiHandler 1 2 XStatus.failure := by
  have h := C10_ipi_status_cleared 1 2 XStatus.failure
  exact ⟨h.1, (h.2 (by decide)).1, (h.2 (by decide)).2 1⟩

/-- **C4**: starting from any tracking state with `processedLength <=
maxSize`, `recordProgress(delta)` never leaves `processedLength > maxSize`:
if the sum would exceed `maxSize` the call returns the readback buffer
overflow error and `processedLength` is unchanged (no partial credit);
otherwise `processedLength` is increased by exactly `delta`. -/
theorem C4_record_progress_bounded (p : XPlmi_ReadBackProps) (delta : Nat)
    (hinv : p.ProcessedLen ≤ p.MaxSize) :
    (recordProgress p delta).2.ProcessedLen ≤ p.MaxSize ∧
    (p.MaxSize < p.ProcessedLen + delta →
      recordProgress p delta = (XPLMI_ERR_READBACK_BUFFER_OVERFLOW, p)) ∧
    (p.ProcessedLen + delta ≤ p.MaxSize →
      recordProgress p delta =
        (XST_SUCCESS_VAL, { p with ProcessedLen := p.ProcessedLen + delta })) := by
  unfold recordProgress
  by_cases hc : p.MaxSize < p.ProcessedLen + delta
  · rw [if_pos hc]
    exact ⟨hinv, fun _ => rfl, fun hle => absurd hc (by omega)⟩
  · rw [if_neg hc]
    exact ⟨by show p.ProcessedLen + delta ≤ p.MaxSize; omega,
      fun hlt => absurd hlt hc, fun _ => rfl⟩

/-- Concrete run of C4 (the spec's scenario): maxSize 100, a first delta of
60 succeeds leaving 60; a second delta of 50 fails with the overflow error,
leaving processedLength at 60 and within bounds. -/
theorem C4_record_progress_bounded_witness :
    recordProgress ⟨0xF00, 100, 0⟩ 60 = (XST_SUCCESS_VAL, ⟨0xF00, 100, 60⟩) ∧
    recordProgress ⟨0xF00, 100, 60⟩ 50 =
      (XPLMI_ERR_READBACK_BUFFER_OVERFLOW, ⟨0xF00, 100, 60⟩) ∧
    (recordProgress ⟨0xF00, 100, 60⟩ 50).2.ProcessedLen ≤ 100 := by
  have h1 := C4_record_progress_bounded ⟨0xF00, 100, 0⟩ 60 (by decide)
  have h2 := C4_record_progress_bounded ⟨0xF00, 100, 60⟩ 50 (by decide)
  exact ⟨h1.2.2 (by decide), h2.2.1 (by decide), h2.1⟩

/-- **C8**: a bulk catalog load whose implied entry count (two words per
entry) exceeds the fixed capacity of 10 fails wholesale with a
capacity-exceeded condition and leaves the previously registered catalog
fully intact; an in-capacity load replaces the catalog with the parsed
entries. -/
theorem C8_set_catalog_capacity (mem : Nat → Nat) (address size : Nat)
    (old : XPlmi_ProcList) :
    (XPLMI_MAX_PROCS_SUPPORTED < size / 2 →
      XPlmi_SetProcList mem address size old = (SetProcStatus.capacityExceeded, old)) ∧
    (size / 2 ≤ XPLMI_MAX_PROCS_SUPPORTED →
      XPlmi_SetProcList mem address size old =
        (SetProcStatus.ok, ⟨size / 2, parseProcData mem address (size / 2)⟩)) := by
  unfold XPlmi_SetProcList
  constructor
  · intro h
    rw [if_pos h]
  · intro h
    rw [if_neg (by omega)]

/-- Concrete run of C8: a region of 22 words implies 11 entries, exceeding
capacity 10, so the prior one-entry catalog survives untouched; a region of
20 words (10 entries) registers successfully. -/
theorem C8_set_catalog_capacity_witness :
    XPlmi_SetProcList (fun a => a) 0 22 ⟨1, [⟨7, 0x700⟩]⟩ =
      (SetProcStatus.capacityExceeded, ⟨1, [⟨7, 0x700⟩]⟩) ∧
    XPlmi_SetProcList (fun a => a) 0 20 ⟨1, [⟨7, 0x700⟩]⟩ =
      (SetProcStatus.ok, ⟨10, parseProcData (fun a => a) 0 10⟩) := by
  have h1 := C8_set_catalog_capacity (fun a => a) 0 22 ⟨1, [⟨7, 0x700⟩]⟩
  have h2 := C8_set_catalog_capacity (fun a => a) 0 20 ⟨1, [⟨7, 0x700⟩]⟩
  exact ⟨h1.1 (by decide), h2.2 (by decide)⟩

/-- **C3**: `execute(id)` succeeds (resolves to a registered address) if and
only if `id` is present in the most recent successful catalog load, and
fails with the not-found condition exactly when it is absent; in particular
a catalog of capacity 10 loaded with ids 0..9 at addresses 0x1000 + 0x40*id
resolves id 9 to 0x1240 and fails id 10 with NotFound. -/
theorem C3_execute_iff_registered (l : XPlmi_ProcList) (procId : Nat) :
    ((∃ a, XPlmi_ExecuteProc l procId = ProcStatus.ok a) ↔
      procId ∈ l.ProcData.map (fun p => p.Id)) ∧
    (XPlmi_ExecuteProc l procId = ProcStatus.notFound ↔
      procId ∉ l.ProcData.map (fun p => p.Id)) ∧
    XPlmi_ExecuteProc
      (XPlmi_SetProcList
        (fun a => if a % 2 = 0 then a / 2 else 0x1000 + 0x40 * (a / 2))
        0 20 ⟨0, []⟩).2 9 = ProcStatus.ok 0x1240 ∧
    XPlmi_ExecuteProc
      (XPlmi_SetProcList
        (fun a => if a % 2 = 0 then a / 2 else 0x1000 + 0x40 * (a / 2))
        0 20 ⟨0, []⟩).2 10 = ProcStatus.notFound := by
  refine ⟨?_, ?_, by decide, by decide⟩
  · unfold XPlmi_ExecuteProc
    cases hf : l.ProcData.find? (fun p => p.Id == procId) with
    | none =>
      simp only [List.mem_map, not_exists]
      constructor
      · rintro ⟨a, ha⟩
        cases ha
      · rintro ⟨q, hq, hid⟩
        have := List.find?_eq_none.mp hf q hq
        simp [hid] at this
    | some q =>
      constructor
      · intro _
        have hq := List.mem_of_find?_eq_some hf
        have hid : q.Id = procId := by
          have := List.find?_some hf
          simpa using this
        exact List.mem_map.mpr ⟨q, hq, hid⟩
      · intro _
        exact ⟨q.Addr, rfl⟩
  · unfold XPlmi_ExecuteProc
    cases hf : l.ProcData.find? (fun p => p.Id == procId) with
    | none =>
      simp only [List.mem_map, not_exists]
      constructor
      · intro _ q hmem
        have hno := List.find?_eq_none.mp hf q hmem.1
        simp [hmem.2] at hno
      · intro _
        trivial
    | some q =>
      constructor
      · intro hcon
        cases hcon
      · intro hnm
        have hq := List.mem_of_find?_eq_some hf
        have hid : q.Id = procId := by
          have := List.find?_some hf
          simpa using this
        exact absurd (List.mem_map.mpr ⟨q, hq, hid⟩) hnm

/-- Concrete run of C3: in the scenario catalog (ids 0..9 at
0x1000 + 0x40*id), id 9 is registered and resolves, while id 10 is absent
and fails NotFound. -/
theorem C3_execute_iff_registered_witness :
    (∃ a, XPlmi_ExecuteProc
      (XPlmi_SetProcList
        (fun a => if a % 2 = 0 then a / 2 else 0x1000 + 0x40 * (a / 2))
        0 20 ⟨0, []⟩).2 9 = ProcStatus.ok a) ∧
    XPlmi_ExecuteProc
      (XPlmi_SetProcList
        (fun a => if a % 2 = 0 then a / 2 else 0x1000 + 0x40 * (a / 2))
        0 20 ⟨0, []⟩).2 10 = ProcStatus.notFound := by
  have h9 := C3_execute_iff_registered
    (XPlmi_SetProcList
      (fun a => if a % 2 = 0 then a / 2 else 0x1000 + 0x40 * (a / 2))
      0 20 ⟨0, []⟩).2 9
  refine ⟨h9.1.mpr (by decide), h9.2.2.2⟩

theorem keyholeRun_step_last (fuel : Nat) (s : KeyholeTransferState)
    (hb : s.bytesTransferred < s.totalLength)
    (hle : s.totalLength - s.bytesTransferred ≤ s.windowSize) :
    keyholeRun (fuel + 1) s = [(s.totalLength - s.bytesTransferred, true)] := by
  have hchunk : min s.windowSize (s.totalLength - s.bytesTransferred)
      = s.totalLength - s.bytesTransferred := by omega
  have hflag : s.bytesTransferred + (s.totalLength - s.bytesTransferred)
      = s.totalLength := by omega
  simp [keyholeRun, keyholeStep, hchunk, hflag]

theorem keyholeRun_step_mid (fuel : Nat) (s : KeyholeTransferState)
    (hlt : s.windowSize < s.totalLength - s.bytesTransferred) :
    keyholeRun (fuel + 1) s =
      (s.windowSize, false) ::
        keyholeRun fuel
          { s with
            bytesTransferred := s.bytesTransferred + s.windowSize,
            sourceAddress := s.sourceAddress + s.windowSize } := by
  have hchunk : min s.windowSize (s.totalLength - s.bytesTransferred)
      = s.windowSize := by omega
  have hflag : ¬(s.bytesTransferred + s.windowSize = s.totalLength) := by omega
  simp [keyholeRun, keyholeStep, hchunk, hflag]

theorem keyholeRun_sum (fuel : Nat) :
    ∀ s : KeyholeTransferState, 0 < s.windowSize →
      s.bytesTransferred < s.totalLength →
      s.totalLength - s.bytesTransferred ≤ fuel →
      ((keyholeRun fuel s).map Prod.fst).sum =
        s.totalLength - s.bytesTransferred := by
  induction fuel with
  | zero =>
    intro s _ hb hf
    omega
  | succ fuel ih =>
    intro s hw hb hf
    rcases le_or_lt (s.totalLength - s.bytesTransferred) s.windowSize with hle | hlt
    · rw [keyholeRun_step_last fuel s hb hle]
      simp
    · rw [keyholeRun_step_mid fuel s hlt]
      have h1 : s.bytesTransferred + s.windowSize < s.totalLength := by omega
      have h2 : s.totalLength - (s.bytesTransferred + s.windowSize) ≤ fuel := by omega
      have hrec : ((keyholeRun fuel
          { s with
            bytesTransferred := s.bytesTransferred + s.windowSize,
            sourceAddress := s.sourceAddress + s.windowSize }).map Prod.fst).sum =
          s.totalLength - (s.bytesTransferred + s.windowSize) :=
        ih _ hw h1 h2
      rw [List.map_cons, List.sum_cons, hrec]
      omega

theorem keyholeRun_lastChunk (fuel : Nat) :
    ∀ s : KeyholeTransferState, 0 < s.windowSize →
      s.bytesTransferred < s.totalLength →
      s.totalLength - s.bytesTransferred ≤ fuel →
      ((keyholeRun fuel s).map Prod.fst).getLast? =
        some (if (s.totalLength - s.bytesTransferred) % s.windowSize = 0
          then s.windowSize
          else (s.totalLength - s.bytesTransferred) % s.windowSize) := by
  induction fuel with
  | zero =>
    intro s _ hb hf
    omega
  | succ fuel ih =>
    intro s hw hb hf
    rcases le_or_lt (s.totalLength - s.bytesTransferred) s.windowSize with hle | hlt
    · rw [keyholeRun_step_last fuel s hb hle]
      by_cases heq : s.totalLength - s.bytesTransferred = s.windowSize
      · rw [heq]
        simp [Nat.mod_self]
      · have hltw : s.totalLength - s.bytesTransferred < s.windowSize := by omega
        rw [Nat.mod_eq_of_lt hltw, if_neg (by omega)]
        simp
    · rw [keyholeRun_step_mid fuel s hlt]
      have h1 : s.bytesTransferred + s.windowSize < s.totalLength := by omega
      have h2 : s.totalLength - (s.bytesTransferred + s.windowSize) ≤ fuel := by omega
      have hrec : ((keyholeRun fuel
          { s with
            bytesTransferred := s.bytesTransferred + s.windowSize,
            sourceAddress := s.sourceAddress + s.windowSize }).map Prod.fst).getLast? =
          some (if (s.totalLength - (s.bytesTransferred + s.windowSize)) % s.windowSize = 0
            then s.windowSize
            else (s.totalLength - (s.bytesTransferred + s.windowSize)) % s.windowSize) :=
        ih _ hw h1 h2
      have hmod : (s.totalLength - (s.bytesTransferred + s.windowSize)) % s.windowSize
          = (s.totalLength - s.bytesTransferred) % s.windowSize := by
        have hW : s.windowSize ≤ s.totalLength - s.bytesTransferred := by omega
        have hsub : s.totalLength - (s.bytesTransferred + s.windowSize)
            = (s.totalLength - s.bytesTransferred) - s.windowSize := by omega
        rw [hsub]
        exact (Nat.mod_eq_sub_mod hW).symm
      rw [hmod] at hrec
      rw [List.map_cons]
      cases hxs : (keyholeRun fuel
          { s with
            bytesTransferred := s.bytesTransferred + s.windowSize,
            sourceAddress := s.sourceAddress + s.windowSize }).map Prod.fst with
      | nil =>
        rw [hxs] at hrec
        cases hrec
      | cons y ys =>
        rw [hxs] at hrec
        rw [List.getLast?_cons_cons]
        exact hrec

theorem keyholeRun_flags (fuel : Nat) :
    ∀ s : KeyholeTransferState, 0 < s.windowSize →
      s.bytesTransferred < s.totalLength →
      s.totalLength - s.bytesTransferred ≤ fuel →
      (keyholeRun fuel s).map Prod.snd =
        List.replicate ((keyholeRun fuel s).length - 1) false ++ [true] := by
  induction fuel with
  | zero =>
    intro s _ hb hf
    omega
  | succ fuel ih =>
    intro s hw hb hf
    rcases le_or_lt (s.totalLength - s.bytesTransferred) s.windowSize with hle | hlt
    · rw [keyholeRun_step_last fuel s hb hle]
      simp
    · rw [keyholeRun_step_mid fuel s hlt]
      have h1 : s.bytesTransferred + s.windowSize < s.totalLength := by omega
      have h2 : s.totalLength - (s.bytesTransferred + s.windowSize) ≤ fuel := by omega
      have hrec := ih { s with
          bytesTransferred := s.bytesTransferred + s.windowSize,
          sourceAddress := s.sourceAddress + s.windowSize } hw h1 h2
      cases hxs : keyholeRun fuel
          { s with
            bytesTransferred := s.bytesTransferred + s.windowSize,
            sourceAddress := s.sourceAddress + s.windowSize } with
      | nil =>
        rw [hxs] at hrec
        simp at hrec
      | cons y ys =>
        rw [hxs] at hrec
        simp only [List.map_cons, List.length_cons] at hrec ⊢
        rw [hrec]
        simp [List.replicate_succ]

/-- **C2**: for every keyhole transfer with positive total length and
positive window size, the chunk lengths over the successive step() calls of
the transfer sum to exactly `totalLength`; moreover `bytesTransferred` is
monotonically non-decreasing across any step and, whenever it is within
bounds before a step, it never exceeds `totalLength` after the step. -/
theorem C2_keyhole_sum_monotone_bounded (s : KeyholeTransferState) (fuel : Nat)
    (hw : 0 < s.windowSize) (ht : 0 < s.totalLength)
    (h0 : s.bytesTransferred = 0) (hf : s.totalLength ≤ fuel) :
    ((keyholeRun fuel s).map Prod.fst).sum = s.totalLength ∧
    (∀ u : KeyholeTransferState,
      u.bytesTransferred ≤ (keyholeStep u).1.bytesTransferred) ∧
    (∀ u : KeyholeTransferState, u.bytesTransferred ≤ u.totalLength →
      (keyholeStep u).1.bytesTransferred ≤ u.totalLength) := by
  refine ⟨?_, fun u => ?_, fun u hu => ?_⟩
  · have hsum := keyholeRun_sum fuel s hw (by omega) (by omega)
    omega
  · show u.bytesTransferred ≤
      u.bytesTransferred + min u.windowSize (u.totalLength - u.bytesTransferred)
    omega
  · show u.bytesTransferred + min u.windowSize (u.totalLength - u.bytesTransferred) ≤
      u.totalLength
    omega

/-- Concrete run of C2: a transfer of 1000 bytes through a 256-byte window
has chunks summing to 1000, and one step from the fresh state does not
decrease nor overshoot the counter. -/
theorem C2_keyhole_sum_monotone_bounded_witness :
    ((keyholeRun 1000 (keyholeInit 0 0 1000 256)).map Prod.fst).sum = 1000 ∧
    (keyholeInit 0 0 1000 256).bytesTransferred ≤
      (keyholeStep (keyholeInit 0 0 1000 256)).1.bytesTransferred ∧
    (keyholeStep (keyholeInit 0 0 1000 256)).1.bytesTransferred ≤ 1000 := by
  have h := C2_keyhole_sum_monotone_bounded (keyholeInit 0 0 1000 256) 1000
    (by decide) (by decide) (by decide) (by decide)
  exact ⟨h.1, h.2.1 (keyholeInit 0 0 1000 256),
    h.2.2 (keyholeInit 0 0 1000 256) (by decide)⟩

/-- **C5**: every step moves `min(windowSize, totalLength -
bytesTransferred)` bytes; over a whole transfer with positive length and
window, the final chunk length is `totalLength mod windowSize` when that
remainder is non-zero and `windowSize` otherwise, and the completion flag is
true only on the last step (all earlier flags are false); the spec's
1000/256 scenario produces chunks [256, 256, 256, 232] with cumulative sums
[256, 512, 768, 1000] and flags [false, false, false, true]. -/
theorem C5_keyhole_final_chunk (src dest totalLength windowSize fuel : Nat)
    (hw : 0 < windowSize) (ht : 0 < totalLength) (hf : totalLength ≤ fuel) :
    (∀ u : KeyholeTransferState,
      (keyholeStep u).2.1 = min u.windowSize (u.totalLength - u.bytesTransferred)) ∧
    ((keyholeRun fuel (keyholeInit src dest totalLength windowSize)).map
        Prod.fst).getLast? =
      some (if totalLength % windowSize = 0 then windowSize
        else totalLength % windowSize) ∧
    (keyholeRun fuel (keyholeInit src dest totalLength windowSize)).map Prod.snd =
      List.replicate
        ((keyholeRun fuel (keyholeInit src dest totalLength windowSize)).length - 1)
        false ++ [true] ∧
    (keyholeRun 1000 (keyholeInit 0 0 1000 256)).map Prod.fst =
      [256, 256, 256, 232] ∧
    (List.range 4).map
      (fun k =>
        (((keyholeRun 1000 (keyholeInit 0 0 1000 256)).map Prod.fst).take (k + 1)).sum)
      = [256, 512, 768, 1000] ∧
    (keyholeRun 1000 (keyholeInit 0 0 1000 256)).map Prod.snd =
      [false, false, false, true] := by
  refine ⟨fun u => rfl, ?_, ?_, by decide, by decide, by decide⟩
  · exact keyholeRun_lastChunk fuel (keyholeInit src dest totalLength windowSize)
      hw ht hf
  · exact keyholeRun_flags fuel (keyholeInit src dest totalLength windowSize)
      hw ht hf

/-- Concrete run of C5: the 1000/256 transfer's final chunk is 232 =
1000 mod 256, and its flags are false until the final step. -/
theorem C5_keyhole_final_chunk_witness :
    ((keyholeRun 1000 (keyholeInit 0 0 1000 256)).map Prod.fst).getLast? =
      some 232 ∧
    (keyholeRun 1000 (keyholeInit 0 0 1000 256)).map Prod.snd =
      [false, false, false, true] := by
  have h := C5_keyhole_final_chunk 0 0 1000 256 1000 (by decide) (by decide) (by decide)
  refine ⟨?_, h.2.2.2.2.2⟩
  exact h.2.1
